import Mathlib

/-!
Temperature-sensor node (examples/tempsensor/src/main.cpp)

A shallow embedding of the cooperative callbacks (`onEvent`, `begin_read`, `do_send`),
the button handler (`buttonInterupt`), the sleep controller (`powersave`) and the main
`loop` of the firmware, followed by theorems about them.

Globals of the program (`new_click`, `send_now`, `sendjob`) are fields of `State`; calls
into collaborators whose effect matters (`powerDown`, `hal_add_time_in_sleep`,
`LMIC.setTxData2`, `requestTemperatures`, `rst_wdt`, `LMIC.setDutyRate`) are recorded in
`State` as logs or counters.  Values read from collaborators (`os_getTime`, the pin level,
the ADC, the sensor bus, the radio's operation state) are arguments.
-/

namespace TempSensor

/-! ## Time -/

/-- Modelled from the spec: the TimeBase is a tick counter. `OsDeltaTime` is declared in the
LMIC headers, which are not among the sources; a duration is a signed number of ticks. -/
structure OsDeltaTime where
  value : Int
deriving DecidableEq, Repr

/-- Modelled from the spec: an absolute reading of the TimeBase (a tick count), the type of
`os_getTime()`. -/
structure OsTime where
  value : Int
deriving DecidableEq, Repr

instance : LT OsDeltaTime := ⟨fun a b => a.value < b.value⟩

instance (a b : OsDeltaTime) : Decidable (a < b) := by
  unfold LT.lt; unfold instLTOsDeltaTime; exact inferInstance

instance : HAdd OsTime OsDeltaTime OsTime := ⟨fun t d => ⟨t.value + d.value⟩⟩

/-- Modelled from the spec: `OsDeltaTime::from_ms`, the duration of `ms` milliseconds in ticks.
The tick rate `tps` (ticks per second, `OSTICKS_PER_SEC` of the absent headers) is a
parameter; the division truncates as C++ integer division does. -/
def OsDeltaTime.from_ms (tps : Nat) (ms : Int) : OsDeltaTime :=
  ⟨Int.tdiv (ms * (tps : Int)) 1000⟩

/-- Modelled from the spec: `OsDeltaTime::from_sec`, the duration of `sec` seconds in ticks. -/
def OsDeltaTime.from_sec (tps : Nat) (sec : Int) : OsDeltaTime :=
  ⟨sec * (tps : Int)⟩

/-- Modelled from the spec: `maxTime / duration_selected`, the integer quotient of two
durations (truncating division of the tick counts). -/
def OsDeltaTime.div (a b : OsDeltaTime) : Int :=
  Int.tdiv a.value b.value

/-- Conversion of an integer to `uint8_t`. -/
def toUint8 (x : Int) : Nat := (x % 256).toNat

/-- Conversion of an integer to `uint16_t`. -/
def toUint16 (x : Int) : Nat := (x % 65536).toNat

/-- Conversion of an integer to `uint32_t`. -/
def toUint32 (x : Int) : Nat := (x % 4294967296).toNat

/-- The constant `constexpr OsDeltaTime TX_INTERVAL = OsDeltaTime::from_sec(180);` -/
def TX_INTERVAL (tps : Nat) : OsDeltaTime := OsDeltaTime.from_sec tps 180

/-! ## Program state -/

/-- The hardware sleep periods that `powersave` passes to `powerDown`. -/
inductive Sleep where
  | P8S | P4S | P2S | P1S | P500MS | P250MS
deriving DecidableEq, Repr

/-- The two functions of main.cpp that are handed to `sendjob` as callbacks. -/
inductive Callback where
  | begin_read | do_send
deriving DecidableEq, Repr

/-- Modelled from the spec: a job slot holds at most one pending callback, either runnable
immediately (`setCallbackRunnable`) or due at a time (`setTimedCallback`); scheduling
replaces whatever was pending. -/
inductive OsJob where
  | idle
  | runnable (cb : Callback)
  | timed (time : OsTime) (cb : Callback)
deriving DecidableEq, Repr

/-- The events `onEvent` switches on; `OTHER` stands for every enumerator that falls to
`default`. -/
inductive EventType where
  | JOINING | JOINED | JOIN_FAILED | TXCOMPLETE | RESET | LINK_DEAD | LINK_ALIVE
  | OTHER (code : Nat)
deriving DecidableEq, Repr

/-- One call `LMIC.setTxData2(port, data, dlen, confirmed)`: `data` is the `dlen` bytes read
from the buffer. -/
structure TxData where
  port : Nat
  data : List Nat
  confirmed : Bool
deriving DecidableEq, Repr

/-- The globals of main.cpp and the recorded effects on the collaborators. -/
structure State where
  /-- The global `bool new_click`. -/
  new_click : Bool
  /-- The global `bool send_now`. -/
  send_now : Bool
  /-- The global `OsJob sendjob`. -/
  sendjob : OsJob
  /-- Sum of the durations passed to `hal_add_time_in_sleep`, in ticks. -/
  time_in_sleep : Int
  /-- The arguments of the `powerDown` calls, oldest first. -/
  powerDowns : List Sleep
  /-- The `LMIC.setTxData2` calls, oldest first. -/
  txData : List TxData
  /-- The value last given to `LMIC.setDutyRate`. -/
  dutyRate : Nat
  /-- Number of `temps_sensors.requestTemperatures()` calls. -/
  conversions : Nat
  /-- Number of `rst_wdt()` calls. -/
  wdt : Nat
  /-- Number of bytes stored outside the bounds of `rawbuff`. -/
  overrun : Nat
  /-- Number of `LMIC.store_trigger()` calls, the record of a radio pin change. -/
  store_trigger : Nat
deriving DecidableEq, Repr

/-- The sensor bus as `do_send` and `begin_read` read it. -/
structure SensorBus where
  /-- The result of `getDeviceCount()`, a `uint8_t`. -/
  getDeviceCount : Fin 256
  /-- The call `getAddress(deviceAddress, i)`: the address of device `i`, or `none` when
  it returns false. -/
  getAddress : Nat → Option Nat
  /-- The result of `getTemp(deviceAddress)`, an `int16_t` raw reading. -/
  getTemp : Nat → Int
  /-- The sentinel `DEVICE_DISCONNECTED_C` of the sensor library. -/
  DEVICE_DISCONNECTED_C : Int
  /-- The result of `getResolution()`. -/
  getResolution : Nat
  /-- The result of `millisToWaitForConversion(resolution)`, in milliseconds. -/
  millisToWaitForConversion : Nat → Int

/-! ## Callbacks -/

/-- The call `rst_wdt()`, counted. -/
def rst_wdt (s : State) : State := { s with wdt := s.wdt + 1 }

/-- The function `void onEvent(EventType ev)`; `now` is the value of `os_getTime()`. -/
def onEvent (tps : Nat) (now : OsTime) (ev : EventType) (s : State) : State :=
  let s := rst_wdt s
  match ev with
  | EventType.JOINING => s
  | EventType.JOINED => { s with dutyRate := 12 }
  | EventType.JOIN_FAILED => s
  | EventType.TXCOMPLETE =>
      { s with send_now := false,
               sendjob := OsJob.timed (now + TX_INTERVAL tps) Callback.begin_read }
  | EventType.RESET => s
  | EventType.LINK_DEAD => s
  | EventType.LINK_ALIVE => s
  | EventType.OTHER _ => s

/-- The function `void begin_read()`; `now` is the value of `os_getTime()`. -/
def begin_read (tps : Nat) (bus : SensorBus) (now : OsTime) (s : State) : State :=
  let s := { s with conversions := s.conversions + 1 }
  let wait := OsDeltaTime.from_ms tps (bus.millisToWaitForConversion bus.getResolution)
  { s with sendjob := OsJob.timed (now + wait) Callback.do_send }

/-- A one-byte store at `rawbuff[off]`: inside the array it replaces the byte, outside it
leaves the array as it is and is counted as an overrun. -/
def storeByte (buf : List Nat × Nat) (off : Nat) (b : Nat) : List Nat × Nat :=
  if off < buf.1.length then (buf.1.set off b, buf.2) else (buf.1, buf.2 + 1)

/-- The store `temp_buff[i] = v` through `uint16_t *temp_buff = rawbuff + 1`: low byte
first (the AVR is little-endian). -/
def storeTemp (buf : List Nat × Nat) (i : Nat) (v : Nat) : List Nat × Nat :=
  storeByte (storeByte buf (1 + 2 * i) (v % 256)) (1 + 2 * i + 1) (v / 256)

/-- The value stored for device `i`: the sentinel when `getAddress` fails, the reading
otherwise, converted to `uint16_t`. -/
def tempValue (bus : SensorBus) (i : Nat) : Nat :=
  match bus.getAddress i with
  | none => toUint16 bus.DEVICE_DISCONNECTED_C
  | some deviceAddress => toUint16 (bus.getTemp deviceAddress)

/-- The battery byte `rawbuff[0] = ((uint32_t)analogRead(A1)) * 255 / 683`. -/
def batteryByte (analog : Int) : Nat :=
  toUint8 (((toUint32 analog * 255) % 4294967296 / 683 : Nat) : Int)

/-- The `uint8_t buffsize = 1 + 2 * temps_sensors.getDeviceCount()`. -/
def buffsize (bus : SensorBus) : Nat :=
  toUint8 (1 + 2 * (bus.getDeviceCount.val : Int))

/-- The buffer `rawbuff` (with the count of out-of-bounds stores) as it is when
`LMIC.setTxData2` is called. The array is not initialised in the source; it starts here
as zeros, and every byte of it is stored to before it is read. -/
def buildBuffer (analog : Int) (bus : SensorBus) : List Nat × Nat :=
  let rawbuff : List Nat × Nat := (List.replicate (buffsize bus) 0, 0)
  let rawbuff := storeByte rawbuff 0 (batteryByte analog)
  (List.range bus.getDeviceCount.val).foldl
    (fun buf i => storeTemp buf i (tempValue bus i)) rawbuff

/-- The function `void do_send()`; `txrxpend` is
`LMIC.getOpMode().test(OpState::TXRXPEND)`, `analog` is `analogRead(A1)` and `now` is the
value of `os_getTime()`. -/
def do_send (tps : Nat) (txrxpend : Bool) (analog : Int) (bus : SensorBus) (now : OsTime)
    (s : State) : State :=
  if txrxpend then
    { s with sendjob := OsJob.timed (now + TX_INTERVAL tps) Callback.do_send }
  else
    let rawbuff := buildBuffer analog bus
    { s with
      txData := s.txData ++ [{ port := 4, data := rawbuff.1, confirmed := false }],
      overrun := s.overrun + rawbuff.2 }

/-! ## Interrupt bridge and sleep controller -/

/-- The function `void buttonInterupt()`; `level` is `digitalRead(button_pin)`. -/
def buttonInterupt (level : Nat) (s : State) : State :=
  if s.send_now then s
  else if level == 0 then { s with new_click := true }
  else s

/-- The handler `ISR(PCINT0_vect)`: one of the radio pins has changed. -/
def PCINT0_vect (s : State) : State := { s with store_trigger := s.store_trigger + 1 }

/-- An interrupt taken while the processor is in `powerDown`: the falling-edge interrupt
of the button pin, which runs `buttonInterupt` (reading `level` from the pin), or the
pin-change interrupt of the radio pins, which runs `ISR(PCINT0_vect)`. -/
inductive Interrupt where
  | button (level : Nat)
  | pcint0
deriving DecidableEq, Repr

/-- The handler of an interrupt. -/
def Interrupt.run : Interrupt → State → State
  | Interrupt.button level, s => buttonInterupt level s
  | Interrupt.pcint0, s => PCINT0_vect s

/-- What happens around one sleep cycle: `wake` lists the interrupts taken during the
`powerDown` call, in order, and `poll` is the pin level read by the call
`buttonInterupt()` in the loop body. -/
structure SleepActivity where
  wake : List Interrupt
  poll : Nat
deriving DecidableEq, Repr

/-- The constant `const int64_t sleepAdj = 1080;` -/
def sleepAdj : Int := 1080

/-- The if-chain of `powersave`: the selected `(duration_selected, period_selected)`, or
`none` on the final `else { return; }`. -/
def selectSleep (tps : Nat) (maxTime : OsDeltaTime) : Option (OsDeltaTime × Sleep) :=
  if maxTime > OsDeltaTime.from_ms tps 8700 then
    some (OsDeltaTime.from_ms tps (Int.tdiv (8000 * sleepAdj) 1000), Sleep.P8S)
  else if maxTime > OsDeltaTime.from_ms tps 4600 then
    some (OsDeltaTime.from_ms tps (Int.tdiv (4000 * sleepAdj) 1000), Sleep.P4S)
  else if maxTime > OsDeltaTime.from_ms tps 2600 then
    some (OsDeltaTime.from_ms tps (Int.tdiv (2000 * sleepAdj) 1000), Sleep.P2S)
  else if maxTime > OsDeltaTime.from_ms tps 1500 then
    some (OsDeltaTime.from_ms tps (Int.tdiv (1000 * sleepAdj) 1000), Sleep.P1S)
  else if maxTime > OsDeltaTime.from_ms tps 800 then
    some (OsDeltaTime.from_ms tps (Int.tdiv (500 * sleepAdj) 1000), Sleep.P500MS)
  else if maxTime > OsDeltaTime.from_ms tps 500 then
    some (OsDeltaTime.from_ms tps (Int.tdiv (250 * sleepAdj) 1000), Sleep.P250MS)
  else
    none

/-- The constants of the if-chain of `powersave` as a table, in the order of the chain:
the threshold in milliseconds that `maxTime` is compared with, the nominal duration in
milliseconds that is scaled by `sleepAdj / 1000`, and the period. -/
def sleepTable : List (Int × Int × Sleep) :=
  [(8700, 8000, Sleep.P8S), (4600, 4000, Sleep.P4S), (2600, 2000, Sleep.P2S),
   (1500, 1000, Sleep.P1S), (800, 500, Sleep.P500MS), (500, 250, Sleep.P250MS)]

/-- The `duration_selected` of a table row: `from_ms(nominal * sleepAdj / 1000)`. -/
def calibrated (tps : Nat) (row : Int × Int × Sleep) : OsDeltaTime :=
  OsDeltaTime.from_ms tps (Int.tdiv (row.2.1 * sleepAdj) 1000)

/-- The body of the `for` loop of `powersave`: `powerDown(period_selected)` (during which
interrupts may be taken), `hal_add_time_in_sleep(duration_selected)`,
`buttonInterupt()`. -/
def sleepCycle (duration_selected : OsDeltaTime) (period_selected : Sleep)
    (b : SleepActivity) (s : State) : State :=
  let s := { s with powerDowns := s.powerDowns ++ [period_selected] }
  let s := b.wake.foldl (fun st irq => irq.run st) s
  let s := { s with time_in_sleep := s.time_in_sleep + duration_selected.value }
  buttonInterupt b.poll s

/-- The loop `for (nbsleep = ...; nbsleep > 0 && !new_click; nbsleep--)`, started with
`nbsleep` iterations left; `i` counts the cycles already done and indexes the
activity. -/
def sleepLoop (duration_selected : OsDeltaTime) (period_selected : Sleep)
    (btn : Nat → SleepActivity) : Nat → Nat → State → State
  | 0, _, s => s
  | nbsleep + 1, i, s =>
      if s.new_click then s
      else sleepLoop duration_selected period_selected btn nbsleep (i + 1)
        (sleepCycle duration_selected period_selected (btn i) s)

/-- The initial value of `uint16_t nbsleep = maxTime / duration_selected`. -/
def cycleCount (maxTime duration_selected : OsDeltaTime) : Nat :=
  toUint16 (OsDeltaTime.div maxTime duration_selected)

/-- The function `void powersave(OsDeltaTime maxTime)`; `btn i` is the activity around
the sleep cycle number `i` (from 0). -/
def powersave (tps : Nat) (btn : Nat → SleepActivity) (maxTime : OsDeltaTime)
    (s : State) : State :=
  match selectSleep tps maxTime with
  | none => s
  | some (duration_selected, period_selected) =>
      sleepLoop duration_selected period_selected btn
        (cycleCount maxTime duration_selected) 0 s

/-- The first statements of `loop()`, up to and including the call of `powersave`;
`runloopOnce` stands for `OSS.runloopOnce()`, which runs the due jobs and returns the
time to wait. -/
def loopSleep (tps : Nat) (runloopOnce : State → OsDeltaTime × State)
    (btn : Nat → SleepActivity) (s : State) : State :=
  let s := rst_wdt s
  let r := runloopOnce s
  if r.1 > OsDeltaTime.mk 0 then powersave tps btn r.1 r.2 else r.2

/-- The function `void loop()`: the statements of `loopSleep`, then the consumption of
a click. -/
def loop (tps : Nat) (runloopOnce : State → OsDeltaTime × State)
    (btn : Nat → SleepActivity) (s : State) : State :=
  let s := loopSleep tps runloopOnce btn s
  if s.new_click then
    { s with send_now := true, new_click := false,
             sendjob := OsJob.runnable Callback.begin_read }
  else s

/-! ## Runs of the program -/

/-- The state after the first `j` sleep cycles when the loop is not stopped. -/
def afterCycles (duration_selected : OsDeltaTime) (period_selected : Sleep)
    (btn : Nat → SleepActivity) : Nat → State → State
  | 0, s => s
  | j + 1, s =>
      sleepCycle duration_selected period_selected (btn j)
        (afterCycles duration_selected period_selected btn j s)

/-- A handler or callback of main.cpp with the values it reads. -/
inductive Op where
  | button (level : Nat)
  | pcint0
  | event (now : OsTime) (ev : EventType)
  | read (bus : SensorBus) (now : OsTime)
  | send (txrxpend : Bool) (analog : Int) (bus : SensorBus) (now : OsTime)

/-- The effect of a handler or callback. -/
def Op.run (tps : Nat) : Op → State → State
  | Op.button level, s => buttonInterupt level s
  | Op.pcint0, s => PCINT0_vect s
  | Op.event now ev, s => onEvent tps now ev s
  | Op.read bus now, s => begin_read tps bus now s
  | Op.send txrxpend analog bus now, s => do_send tps txrxpend analog bus now s

/-- Whether the operation is the delivery of `TXCOMPLETE`. -/
def Op.isTxComplete : Op → Bool
  | Op.event _ EventType.TXCOMPLETE => true
  | _ => false

/-- Modelled from the spec: `OSS.runloopOnce()` dispatches callbacks, each running to
completion, and returns the duration until the next job is due. The scheduler is not
among the sources; the dispatched handlers and callbacks `jobs` (event deliveries and
interrupts taken meanwhile included) and the returned `to_wait` are given. -/
def runloopOnce (tps : Nat) (jobs : List Op) (to_wait : OsDeltaTime) (s : State) :
    OsDeltaTime × State :=
  (to_wait, jobs.foldl (fun st o => o.run tps st) s)

/-- One step of a run: a handler or callback on its own, a call of `powersave` on its
own (as `testDuration` does), or one iteration of `loop`. -/
inductive Step where
  | op (o : Op)
  | sleep (btn : Nat → SleepActivity) (maxTime : OsDeltaTime)
  | iteration (jobs : List Op) (to_wait : OsDeltaTime) (btn : Nat → SleepActivity)

/-- The effect of a step. -/
def Step.run (tps : Nat) : Step → State → State
  | Step.op o, s => o.run tps s
  | Step.sleep btn maxTime, s => powersave tps btn maxTime s
  | Step.iteration jobs to_wait btn, s => loop tps (runloopOnce tps jobs to_wait) btn s

/-- Whether `TXCOMPLETE` is delivered during the step. -/
def Step.hasTxComplete : Step → Bool
  | Step.op o => o.isTxComplete
  | Step.sleep _ _ => false
  | Step.iteration jobs _ _ => jobs.any Op.isTxComplete

/-- The state after a sequence of steps. -/
def runSteps (tps : Nat) (steps : List Step) (s : State) : State :=
  steps.foldl (fun st step => step.run tps st) s

/-- A state for examples: flags clear, nothing scheduled, nothing recorded. -/
def State.init : State :=
  { new_click := false, send_now := false, sendjob := OsJob.idle, time_in_sleep := 0,
    powerDowns := [], txData := [], dutyRate := 0, conversions := 0, wdt := 0,
    overrun := 0, store_trigger := 0 }

/-- An activity in which nothing happens: no interrupt, pin high at the poll. -/
def SleepActivity.quiet : SleepActivity := { wake := [], poll := 1 }

/-! ## Inputs used in examples -/

/-- The button is found pressed at the check that follows the `k`-th sleep cycle (counted
from 1) and nothing else happens. -/
def clickAt (k : Nat) : Nat → SleepActivity :=
  fun i => if i + 1 = k then { wake := [], poll := 0 } else SleepActivity.quiet

/-- A radio pin change is recorded during the `k`-th sleep cycle (counted from 1), the
button is never pressed. -/
def radioAt (k : Nat) : Nat → SleepActivity :=
  fun i => if i + 1 = k then { wake := [Interrupt.pcint0], poll := 1 } else SleepActivity.quiet

/-- The two bytes of each of the first `m` devices, low byte first. -/
def encodeTemps (bus : SensorBus) (m : Nat) : List Nat :=
  (List.range m).flatMap (fun i => [tempValue bus i % 256, tempValue bus i / 256])

/-- A bus reporting 128 devices, all reachable and reading 0. -/
def bus128 : SensorBus :=
  { getDeviceCount := 128, getAddress := fun i => some i, getTemp := fun _ => 0,
    DEVICE_DISCONNECTED_C := -127, getResolution := 12,
    millisToWaitForConversion := fun _ => 750 }

/-- Whether the interrupt is a button interrupt that reads the pin low. -/
def Interrupt.isPress : Interrupt → Bool
  | Interrupt.button level => level == 0
  | Interrupt.pcint0 => false

/-- Whether the pin is read low at some run of `buttonInterupt` around the cycle. -/
def SleepActivity.pressed (b : SleepActivity) : Bool :=
  b.wake.any Interrupt.isPress || b.poll == 0

/-! ## Auxiliary lemmas -/

theorem OsDeltaTime.lt_def (a b : OsDeltaTime) : a < b ↔ a.value < b.value := Iff.rfl

theorem OsDeltaTime.gt_def (a b : OsDeltaTime) : a > b ↔ b.value < a.value := Iff.rfl

theorem from_ms_value (tps : Nat) (ms : Int) (h : 0 ≤ ms) :
    (OsDeltaTime.from_ms tps ms).value = ms * (tps : Int) / 1000 := by
  unfold OsDeltaTime.from_ms
  exact Int.tdiv_eq_ediv (Int.mul_nonneg h (Int.ofNat_nonneg tps)) (by decide)

theorem quantum_consts :
    Int.tdiv (8000 * sleepAdj) 1000 = 8640 ∧ Int.tdiv (4000 * sleepAdj) 1000 = 4320 ∧
    Int.tdiv (2000 * sleepAdj) 1000 = 2160 ∧ Int.tdiv (1000 * sleepAdj) 1000 = 1080 ∧
    Int.tdiv (500 * sleepAdj) 1000 = 540 ∧ Int.tdiv (250 * sleepAdj) 1000 = 270 := by
  decide

/-- The six outcomes of the if-chain with the conditions under which each is taken. -/
theorem selectSleep_cases (tps : Nat) (maxTime : OsDeltaTime) :
    (selectSleep tps maxTime = some (OsDeltaTime.from_ms tps 8640, Sleep.P8S) ∧
      8700 * (tps : Int) / 1000 < maxTime.value) ∨
    (selectSleep tps maxTime = some (OsDeltaTime.from_ms tps 4320, Sleep.P4S) ∧
      4600 * (tps : Int) / 1000 < maxTime.value ∧ maxTime.value ≤ 8700 * (tps : Int) / 1000) ∨
    (selectSleep tps maxTime = some (OsDeltaTime.from_ms tps 2160, Sleep.P2S) ∧
      2600 * (tps : Int) / 1000 < maxTime.value ∧ maxTime.value ≤ 4600 * (tps : Int) / 1000) ∨
    (selectSleep tps maxTime = some (OsDeltaTime.from_ms tps 1080, Sleep.P1S) ∧
      1500 * (tps : Int) / 1000 < maxTime.value ∧ maxTime.value ≤ 2600 * (tps : Int) / 1000) ∨
    (selectSleep tps maxTime = some (OsDeltaTime.from_ms tps 540, Sleep.P500MS) ∧
      800 * (tps : Int) / 1000 < maxTime.value ∧ maxTime.value ≤ 1500 * (tps : Int) / 1000) ∨
    (selectSleep tps maxTime = some (OsDeltaTime.from_ms tps 270, Sleep.P250MS) ∧
      500 * (tps : Int) / 1000 < maxTime.value ∧ maxTime.value ≤ 800 * (tps : Int) / 1000) ∨
    (selectSleep tps maxTime = none ∧ maxTime.value ≤ 500 * (tps : Int) / 1000) := by
  obtain ⟨c1, c2, c3, c4, c5, c6⟩ := quantum_consts
  unfold selectSleep
  simp only [c1, c2, c3, c4, c5, c6, OsDeltaTime.gt_def]
  rw [from_ms_value tps 8700 (by decide), from_ms_value tps 4600 (by decide),
    from_ms_value tps 2600 (by decide), from_ms_value tps 1500 (by decide),
    from_ms_value tps 800 (by decide), from_ms_value tps 500 (by decide)]
  split_ifs <;> simp <;> omega

theorem buttonInterupt_cases (level : Nat) (s : State) :
    buttonInterupt level s = s ∨
    (s.send_now = false ∧ level = 0 ∧
      buttonInterupt level s = { s with new_click := true }) := by
  unfold buttonInterupt
  cases hs : s.send_now <;> simp
  by_cases hl : level = 0 <;> simp [hl]

/-- What an interrupt handler leaves alone, and that it never clears `new_click`. -/
theorem Interrupt.run_frame (irq : Interrupt) (s : State) :
    (irq.run s).powerDowns = s.powerDowns ∧ (irq.run s).time_in_sleep = s.time_in_sleep ∧
    (irq.run s).send_now = s.send_now ∧
    (s.new_click = true → (irq.run s).new_click = true) := by
  cases irq with
  | button level =>
      rcases buttonInterupt_cases level s with h | ⟨_, _, h⟩ <;>
        simp [Interrupt.run, h]
  | pcint0 => simp [Interrupt.run, PCINT0_vect]

theorem wake_frame (wake : List Interrupt) (s : State) :
    (wake.foldl (fun st irq => irq.run st) s).powerDowns = s.powerDowns ∧
    (wake.foldl (fun st irq => irq.run st) s).time_in_sleep = s.time_in_sleep ∧
    (wake.foldl (fun st irq => irq.run st) s).send_now = s.send_now ∧
    (s.new_click = true → (wake.foldl (fun st irq => irq.run st) s).new_click = true) := by
  induction wake generalizing s with
  | nil => simp
  | cons irq rest ih =>
      obtain ⟨h1, h2, h3, h4⟩ := Interrupt.run_frame irq s
      obtain ⟨k1, k2, k3, k4⟩ := ih (irq.run s)
      simp only [List.foldl_cons]
      exact ⟨k1.trans h1, k2.trans h2, k3.trans h3, fun h => k4 (h4 h)⟩

/-- One sleep cycle logs one `powerDown`, adds one quantum, keeps `send_now` and never
clears `new_click`. -/
theorem sleepCycle_effect (q : OsDeltaTime) (mode : Sleep) (b : SleepActivity) (s : State) :
    (sleepCycle q mode b s).powerDowns = s.powerDowns ++ [mode] ∧
    (sleepCycle q mode b s).time_in_sleep = s.time_in_sleep + q.value ∧
    (sleepCycle q mode b s).send_now = s.send_now ∧
    (s.new_click = true → (sleepCycle q mode b s).new_click = true) := by
  obtain ⟨h1, h2, h3, h4⟩ :=
    wake_frame b.wake { s with powerDowns := s.powerDowns ++ [mode] }
  unfold sleepCycle
  simp only
  generalize List.foldl (fun st irq => irq.run st)
    { s with powerDowns := s.powerDowns ++ [mode] } b.wake = t at h1 h2 h3 h4
  rcases buttonInterupt_cases b.poll { t with time_in_sleep := t.time_in_sleep + q.value }
    with h | ⟨_, _, h⟩ <;> rw [h] <;> simp_all

theorem afterCycles_effect (q : OsDeltaTime) (mode : Sleep) (btn : Nat → SleepActivity)
    (j : Nat) (s : State) :
    (afterCycles q mode btn j s).powerDowns = s.powerDowns ++ List.replicate j mode ∧
    (afterCycles q mode btn j s).time_in_sleep = s.time_in_sleep + (j : Int) * q.value ∧
    (afterCycles q mode btn j s).send_now = s.send_now ∧
    (s.new_click = true → (afterCycles q mode btn j s).new_click = true) := by
  induction j with
  | zero => simp [afterCycles]
  | succ j ih =>
      obtain ⟨h1, h2, h3, h4⟩ := ih
      obtain ⟨k1, k2, k3, k4⟩ := sleepCycle_effect q mode (btn j) (afterCycles q mode btn j s)
      simp only [afterCycles]
      refine ⟨?_, ?_, k3.trans h3, fun h => k4 (h4 h)⟩
      · rw [k1, h1, List.replicate_succ', List.append_assoc]
      · rw [k2, h2]; push_cast; ring

/-- The loop stops after the first cycle whose end finds `new_click` set. -/
theorem sleepLoop_stop (q : OsDeltaTime) (mode : Sleep) (btn : Nat → SleepActivity)
    (s : State) (k : Nat) (hk : (afterCycles q mode btn k s).new_click = true) :
    ∀ (n i : Nat), i ≤ k → k ≤ i + n →
      (∀ j, i ≤ j → j < k → (afterCycles q mode btn j s).new_click = false) →
      sleepLoop q mode btn n i (afterCycles q mode btn i s) = afterCycles q mode btn k s := by
  intro n
  induction n with
  | zero =>
      intro i h1 h2 _
      have : i = k := by omega
      subst this
      simp [sleepLoop]
  | succ n ih =>
      intro i h1 h2 hclear
      by_cases hik : i = k
      · subst hik
        simp [sleepLoop, hk]
      · have hi : (afterCycles q mode btn i s).new_click = false := hclear i (le_refl i) (by omega)
        simp only [sleepLoop, hi, Bool.false_eq_true, if_false]
        exact ih (i + 1) (by omega) (by omega) (fun j hj1 hj2 => hclear j (by omega) hj2)

/-- The loop runs all its iterations when `new_click` is clear before each of them. -/
theorem sleepLoop_all (q : OsDeltaTime) (mode : Sleep) (btn : Nat → SleepActivity)
    (s : State) :
    ∀ (n i : Nat),
      (∀ j, i ≤ j → j < i + n → (afterCycles q mode btn j s).new_click = false) →
      sleepLoop q mode btn n i (afterCycles q mode btn i s) =
        afterCycles q mode btn (i + n) s := by
  intro n
  induction n with
  | zero => intro i _; simp [sleepLoop]
  | succ n ih =>
      intro i hclear
      have hi : (afterCycles q mode btn i s).new_click = false := hclear i (le_refl i) (by omega)
      simp only [sleepLoop, hi, Bool.false_eq_true, if_false]
      have := ih (i + 1) (fun j hj1 hj2 => hclear j (by omega) (by omega))
      rw [show i + (n + 1) = i + 1 + n by omega]
      exact this

/-- Whatever the button does, the loop ends in the state after some number `m` of whole
cycles, `m` at most the initial `nbsleep`. -/
theorem sleepLoop_some (q : OsDeltaTime) (mode : Sleep) (btn : Nat → SleepActivity)
    (s : State) :
    ∀ (n i : Nat), ∃ m, i ≤ m ∧ m ≤ i + n ∧
      sleepLoop q mode btn n i (afterCycles q mode btn i s) = afterCycles q mode btn m s := by
  intro n
  induction n with
  | zero => intro i; exact ⟨i, le_refl i, le_refl i, by simp [sleepLoop]⟩
  | succ n ih =>
      intro i
      by_cases hi : (afterCycles q mode btn i s).new_click = true
      · exact ⟨i, le_refl i, by omega, by simp [sleepLoop, hi]⟩
      · obtain ⟨m, h1, h2, h3⟩ := ih (i + 1)
        refine ⟨m, by omega, by omega, ?_⟩
        simp only [sleepLoop, hi, if_false]
        exact h3

theorem powersave_some (tps : Nat) (btn : Nat → SleepActivity) (maxTime : OsDeltaTime)
    (s : State) (q : OsDeltaTime) (mode : Sleep)
    (hsel : selectSleep tps maxTime = some (q, mode)) :
    powersave tps btn maxTime s = sleepLoop q mode btn (cycleCount maxTime q) 0 s := by
  simp [powersave, hsel]

/-- A selected quantum is one of the six calibrated durations with its period; at a tick
rate of at least 4 per second it is positive, and it never exceeds `maxTime`. -/
theorem selectSleep_bounds (tps : Nat) (maxTime q : OsDeltaTime) (mode : Sleep)
    (hsel : selectSleep tps maxTime = some (q, mode)) :
    (4 ≤ tps → 0 < q.value) ∧ 0 ≤ q.value ∧ q.value ≤ maxTime.value := by
  have v1 := from_ms_value tps 8640 (by decide)
  have v2 := from_ms_value tps 4320 (by decide)
  have v3 := from_ms_value tps 2160 (by decide)
  have v4 := from_ms_value tps 1080 (by decide)
  have v5 := from_ms_value tps 540 (by decide)
  have v6 := from_ms_value tps 270 (by decide)
  rcases selectSleep_cases tps maxTime with
    ⟨h, c⟩ | ⟨h, c⟩ | ⟨h, c⟩ | ⟨h, c⟩ | ⟨h, c⟩ | ⟨h, c⟩ | ⟨h, c⟩ <;>
  rw [h] at hsel <;> simp at hsel <;> obtain ⟨rfl, rfl⟩ := hsel <;>
  refine ⟨fun h4 => ?_, ?_, ?_⟩ <;> omega

theorem cycleCount_mul_le (maxTime q : OsDeltaTime) (hq : 0 ≤ q.value)
    (hm : 0 ≤ maxTime.value) :
    (cycleCount maxTime q : Int) * q.value ≤ maxTime.value := by
  unfold cycleCount toUint16 OsDeltaTime.div
  rw [Int.tdiv_eq_ediv hm hq]
  rcases eq_or_lt_of_le hq with h0 | hpos
  · rw [← h0]; simpa using hm
  · have hd : 0 ≤ maxTime.value / q.value := Int.ediv_nonneg hm hq
    have h1 : ((maxTime.value / q.value % 65536).toNat : Int) ≤ maxTime.value / q.value := by
      omega
    calc ((maxTime.value / q.value % 65536).toNat : Int) * q.value
        ≤ maxTime.value / q.value * q.value := mul_le_mul_of_nonneg_right h1 hq
      _ ≤ maxTime.value := Int.ediv_mul_le _ (ne_of_gt hpos)

/-- A selected pair is the calibrated duration and the period of a row of the table. -/
theorem selectSleep_mem_table (tps : Nat) (maxTime q : OsDeltaTime) (mode : Sleep)
    (hsel : selectSleep tps maxTime = some (q, mode)) :
    ∃ row ∈ sleepTable, q = calibrated tps row ∧ mode = row.2.2 := by
  unfold selectSleep at hsel
  split_ifs at hsel <;> simp at hsel <;> obtain ⟨rfl, rfl⟩ := hsel
  · exact ⟨(8700, 8000, Sleep.P8S), by simp [sleepTable], rfl, rfl⟩
  · exact ⟨(4600, 4000, Sleep.P4S), by simp [sleepTable], rfl, rfl⟩
  · exact ⟨(2600, 2000, Sleep.P2S), by simp [sleepTable], rfl, rfl⟩
  · exact ⟨(1500, 1000, Sleep.P1S), by simp [sleepTable], rfl, rfl⟩
  · exact ⟨(800, 500, Sleep.P500MS), by simp [sleepTable], rfl, rfl⟩
  · exact ⟨(500, 250, Sleep.P250MS), by simp [sleepTable], rfl, rfl⟩

theorem cycleCount_eq (maxTime q : OsDeltaTime) (hm : 0 ≤ maxTime.value)
    (hq : 0 ≤ q.value) :
    (cycleCount maxTime q : Int) = maxTime.value / q.value % 65536 := by
  unfold cycleCount toUint16 OsDeltaTime.div
  rw [Int.tdiv_eq_ediv hm hq]
  omega

theorem buttonInterupt_store_trigger (level : Nat) (s : State) :
    (buttonInterupt level s).store_trigger = s.store_trigger := by
  rcases buttonInterupt_cases level s with h | ⟨_, _, h⟩ <;> rw [h]

theorem wake_store_trigger (wake : List Interrupt) (s : State) :
    s.store_trigger ≤ (wake.foldl (fun st irq => irq.run st) s).store_trigger ∧
    (Interrupt.pcint0 ∈ wake →
      s.store_trigger < (wake.foldl (fun st irq => irq.run st) s).store_trigger) := by
  induction wake generalizing s with
  | nil => simp
  | cons irq rest ih =>
      obtain ⟨k1, k2⟩ := ih (irq.run s)
      simp only [List.foldl_cons, List.mem_cons]
      cases irq with
      | button level =>
          have e : (Interrupt.run (Interrupt.button level) s).store_trigger = s.store_trigger :=
            buttonInterupt_store_trigger level s
          rw [e] at k1 k2
          refine ⟨k1, fun h => ?_⟩
          rcases h with h | h
          · cases h
          · exact k2 h
      | pcint0 =>
          have e : (Interrupt.run Interrupt.pcint0 s).store_trigger = s.store_trigger + 1 := rfl
          rw [e] at k1 k2
          exact ⟨by omega, fun _ => by omega⟩

theorem sleepCycle_store_trigger (q : OsDeltaTime) (mode : Sleep) (b : SleepActivity)
    (s : State) :
    s.store_trigger ≤ (sleepCycle q mode b s).store_trigger ∧
    (Interrupt.pcint0 ∈ b.wake → s.store_trigger < (sleepCycle q mode b s).store_trigger) := by
  have h := wake_store_trigger b.wake { s with powerDowns := s.powerDowns ++ [mode] }
  unfold sleepCycle
  simp only [buttonInterupt_store_trigger]
  exact h

theorem afterCycles_store_trigger (q : OsDeltaTime) (mode : Sleep)
    (btn : Nat → SleepActivity) (s : State) (n : Nat) :
    s.store_trigger ≤ (afterCycles q mode btn n s).store_trigger ∧
    ∀ k, k < n → Interrupt.pcint0 ∈ (btn k).wake →
      s.store_trigger < (afterCycles q mode btn n s).store_trigger := by
  induction n with
  | zero => simp [afterCycles]
  | succ n ih =>
      obtain ⟨h1, h2⟩ := ih
      obtain ⟨k1, k2⟩ := sleepCycle_store_trigger q mode (btn n) (afterCycles q mode btn n s)
      simp only [afterCycles]
      refine ⟨le_trans h1 k1, fun k hk hmem => ?_⟩
      by_cases hkn : k = n
      · subst hkn; exact lt_of_le_of_lt h1 (k2 hmem)
      · exact lt_of_lt_of_le (h2 k (by omega) hmem) k1

theorem encodeTemps_length (bus : SensorBus) (m : Nat) : (encodeTemps bus m).length = 2 * m := by
  induction m with
  | zero => simp [encodeTemps]
  | succ m ih =>
      unfold encodeTemps at ih ⊢
      rw [List.range_succ, List.flatMap_append, List.length_append, ih]
      simp
      omega

theorem encodeTemps_succ (bus : SensorBus) (m : Nat) :
    encodeTemps bus (m + 1)
      = encodeTemps bus m ++ [tempValue bus m % 256, tempValue bus m / 256] := by
  unfold encodeTemps
  rw [List.range_succ, List.flatMap_append]
  simp

/-- Storing device `m` into a buffer whose first `m` devices are filled and which has room
left for at least one more. -/
theorem storeTemp_fill (bus : SensorBus) (b : Nat) (m r v : Nat) :
    storeTemp (b :: (encodeTemps bus m ++ (0 :: 0 :: List.replicate r 0)), 0) m v
      = (b :: (encodeTemps bus m ++ (v % 256 :: v / 256 :: List.replicate r 0)), 0) := by
  have hl := encodeTemps_length bus m
  unfold storeTemp storeByte
  have h1 : 1 + 2 * m < (b :: (encodeTemps bus m ++ (0 :: 0 :: List.replicate r 0))).length := by
    simp [hl]; omega
  simp only [h1, if_true]
  have e1 : (b :: (encodeTemps bus m ++ (0 :: 0 :: List.replicate r 0))).set (1 + 2 * m) (v % 256)
      = b :: (encodeTemps bus m ++ (v % 256 :: 0 :: List.replicate r 0)) := by
    rw [show 1 + 2 * m = 2 * m + 1 by omega, List.set_cons_succ,
      List.set_append_right _ _ (by omega)]
    simp [hl]
  rw [e1]
  have h2 : 1 + 2 * m + 1
      < (b :: (encodeTemps bus m ++ (v % 256 :: 0 :: List.replicate r 0))).length := by
    simp [hl]; omega
  simp only [h2, if_true]
  rw [show 1 + 2 * m + 1 = (2 * m + 1) + 1 by omega, List.set_cons_succ,
    List.set_append_right _ _ (by omega)]
  simp [hl]

theorem fill_upto (bus : SensorBus) (b : Nat) (n m : Nat) (hm : m ≤ n) :
    (List.range m).foldl (fun buf i => storeTemp buf i (tempValue bus i))
        (b :: List.replicate (2 * n) 0, 0)
      = (b :: (encodeTemps bus m ++ List.replicate (2 * (n - m)) 0), 0) := by
  induction m with
  | zero => simp [encodeTemps]
  | succ m ih =>
      rw [List.range_succ, List.foldl_append, ih (by omega)]
      simp only [List.foldl_cons, List.foldl_nil]
      have hr : 2 * (n - m) = 2 * (n - (m + 1)) + 1 + 1 := by omega
      rw [hr, List.replicate_succ, List.replicate_succ, storeTemp_fill, encodeTemps_succ]
      simp

theorem buffsize_fits (bus : SensorBus) (h : bus.getDeviceCount.val ≤ 127) :
    buffsize bus = 1 + 2 * bus.getDeviceCount.val := by
  unfold buffsize toUint8
  omega

/-- With at most 127 devices the buffer holds the battery byte followed by the two bytes
of every device, and no store falls outside it. -/
theorem buildBuffer_fits (analog : Int) (bus : SensorBus) (h : bus.getDeviceCount.val ≤ 127) :
    buildBuffer analog bus
      = (batteryByte analog :: encodeTemps bus bus.getDeviceCount.val, 0) := by
  unfold buildBuffer
  simp only [buffsize_fits bus h]
  have e : storeByte (List.replicate (1 + 2 * bus.getDeviceCount.val) 0, 0) 0 (batteryByte analog)
      = (batteryByte analog :: List.replicate (2 * bus.getDeviceCount.val) 0, 0) := by
    unfold storeByte
    rw [show 1 + 2 * bus.getDeviceCount.val = 2 * bus.getDeviceCount.val + 1 by omega,
      List.replicate_succ]
    simp
  rw [e, fill_upto bus _ _ _ (le_refl _)]
  simp

/-- With at most 127 devices and the stack not busy, `do_send` submits on port 4,
unconfirmed, exactly `1 + 2n` bytes: the battery byte, then for each device its 16-bit
value (the sentinel when its address cannot be read), low byte first. -/
theorem do_send_payload_fits (tps : Nat) (analog : Int) (bus : SensorBus) (now : OsTime)
    (s : State) (h : bus.getDeviceCount.val ≤ 127) :
    (do_send tps false analog bus now s).txData
      = s.txData ++ [{ port := 4,
                       data := batteryByte analog :: encodeTemps bus bus.getDeviceCount.val,
                       confirmed := false }] ∧
    (batteryByte analog :: encodeTemps bus bus.getDeviceCount.val).length
      = 1 + 2 * bus.getDeviceCount.val ∧
    (do_send tps false analog bus now s).overrun = s.overrun := by
  simp [do_send, buildBuffer_fits analog bus h, encodeTemps_length]
  omega

theorem buttonInterupt_of_send_now (level : Nat) (s : State) (h : s.send_now = true) :
    buttonInterupt level s = s := by
  simp [buttonInterupt, h]

/-- While `send_now` is set an interrupt handler changes neither flag. -/
theorem Interrupt.run_flags (irq : Interrupt) (s : State) (h : s.send_now = true) :
    (irq.run s).send_now = true ∧ (irq.run s).new_click = s.new_click := by
  cases irq with
  | button level => simp [Interrupt.run, buttonInterupt_of_send_now level s h, h]
  | pcint0 => simp [Interrupt.run, PCINT0_vect, h]

theorem wake_flags (wake : List Interrupt) (s : State) (h : s.send_now = true) :
    (wake.foldl (fun st irq => irq.run st) s).send_now = true ∧
    (wake.foldl (fun st irq => irq.run st) s).new_click = s.new_click := by
  induction wake generalizing s with
  | nil => simp [h]
  | cons irq rest ih =>
      obtain ⟨h1, h2⟩ := Interrupt.run_flags irq s h
      obtain ⟨k1, k2⟩ := ih (irq.run s) h1
      simp only [List.foldl_cons]
      exact ⟨k1, k2.trans h2⟩

theorem sleepCycle_flags (q : OsDeltaTime) (mode : Sleep) (b : SleepActivity) (s : State)
    (h : s.send_now = true) :
    (sleepCycle q mode b s).send_now = true ∧
    (sleepCycle q mode b s).new_click = s.new_click := by
  obtain ⟨h1, h2⟩ := wake_flags b.wake { s with powerDowns := s.powerDowns ++ [mode] } h
  unfold sleepCycle
  simp only
  rw [buttonInterupt_of_send_now _ _ (by simpa using h1)]
  exact ⟨h1, h2⟩

theorem afterCycles_flags (q : OsDeltaTime) (mode : Sleep) (btn : Nat → SleepActivity)
    (j : Nat) (s : State) (h : s.send_now = true) :
    (afterCycles q mode btn j s).send_now = true ∧
    (afterCycles q mode btn j s).new_click = s.new_click := by
  induction j with
  | zero => simp [afterCycles, h]
  | succ j ih =>
      obtain ⟨h1, h2⟩ := ih
      obtain ⟨k1, k2⟩ := sleepCycle_flags q mode (btn j) (afterCycles q mode btn j s) h1
      simp only [afterCycles]
      exact ⟨k1, k2.trans h2⟩

/-- While `send_now` is set, `powersave` changes neither flag. -/
theorem powersave_flags (tps : Nat) (btn : Nat → SleepActivity) (maxTime : OsDeltaTime)
    (s : State) (h : s.send_now = true) :
    (powersave tps btn maxTime s).send_now = true ∧
    (powersave tps btn maxTime s).new_click = s.new_click := by
  cases hsel : selectSleep tps maxTime with
  | none => simp [powersave, hsel, h]
  | some p =>
      obtain ⟨q, mode⟩ := p
      obtain ⟨m, _, _, hrun⟩ := sleepLoop_some q mode btn s (cycleCount maxTime q) 0
      simp only [afterCycles] at hrun
      rw [powersave_some tps btn maxTime s q mode hsel, hrun]
      exact afterCycles_flags q mode btn m s h

/-- A handler or callback other than the delivery of TXCOMPLETE keeps `send_now` set and
`new_click` clear. -/
theorem op_run_keeps (tps : Nat) (o : Op) (s : State) (ho : o.isTxComplete = false)
    (h1 : s.send_now = true) (h2 : s.new_click = false) :
    (o.run tps s).send_now = true ∧ (o.run tps s).new_click = false := by
  cases o with
  | button level => simp [Op.run, buttonInterupt_of_send_now level s h1, h1, h2]
  | pcint0 => simp [Op.run, PCINT0_vect, h1, h2]
  | event now ev =>
      cases ev <;> simp [Op.isTxComplete] at ho <;> simp [Op.run, onEvent, rst_wdt, h1, h2]
  | read bus now => simp [Op.run, begin_read, h1, h2]
  | send txrxpend analog bus now =>
      cases txrxpend <;> simp [Op.run, do_send, h1, h2]

theorem runloopOnce_keeps (tps : Nat) (jobs : List Op) (to_wait : OsDeltaTime) (s : State)
    (hj : jobs.any Op.isTxComplete = false)
    (h1 : s.send_now = true) (h2 : s.new_click = false) :
    (runloopOnce tps jobs to_wait s).1 = to_wait ∧
    (runloopOnce tps jobs to_wait s).2.send_now = true ∧
    (runloopOnce tps jobs to_wait s).2.new_click = false := by
  unfold runloopOnce
  refine ⟨rfl, ?_⟩
  simp only
  induction jobs generalizing s with
  | nil => simp [h1, h2]
  | cons o rest ih =>
      simp only [List.any_cons, Bool.or_eq_false_iff] at hj
      obtain ⟨k1, k2⟩ := op_run_keeps tps o s hj.1 h1 h2
      simp only [List.foldl_cons]
      exact ih (o.run tps s) hj.2 k1 k2

theorem step_run_keeps (tps : Nat) (step : Step) (s : State)
    (hs : step.hasTxComplete = false)
    (h1 : s.send_now = true) (h2 : s.new_click = false) :
    (step.run tps s).send_now = true ∧ (step.run tps s).new_click = false := by
  cases step with
  | op o => exact op_run_keeps tps o s hs h1 h2
  | sleep btn maxTime =>
      obtain ⟨k1, k2⟩ := powersave_flags tps btn maxTime s h1
      exact ⟨k1, k2.trans h2⟩
  | iteration jobs to_wait btn =>
      simp only [Step.hasTxComplete] at hs
      obtain ⟨_, k1, k2⟩ := runloopOnce_keeps tps jobs to_wait (rst_wdt s) hs
        (by simpa [rst_wdt] using h1) (by simpa [rst_wdt] using h2)
      have hsl : (loopSleep tps (runloopOnce tps jobs to_wait) btn s).send_now = true ∧
          (loopSleep tps (runloopOnce tps jobs to_wait) btn s).new_click = false := by
        unfold loopSleep
        simp only
        split_ifs
        · obtain ⟨p1, p2⟩ := powersave_flags tps btn
            (runloopOnce tps jobs to_wait (rst_wdt s)).1
            (runloopOnce tps jobs to_wait (rst_wdt s)).2 k1
          exact ⟨p1, p2.trans k2⟩
        · exact ⟨k1, k2⟩
      simp only [Step.run, loop, hsl.2, Bool.false_eq_true, if_false]
      exact ⟨hsl.1, trivial⟩

theorem storeByte_head (buf : List Nat × Nat) (off b : Nat) (hoff : 0 < off) :
    (storeByte buf off b).1.head? = buf.1.head? ∧
    (storeByte buf off b).1.length = buf.1.length := by
  unfold storeByte
  split_ifs
  · obtain ⟨l, k⟩ := buf
    cases l with
    | nil => simp
    | cons a rest =>
        obtain ⟨j, rfl⟩ : ∃ j, off = j + 1 := ⟨off - 1, by omega⟩
        simp
  · exact ⟨rfl, rfl⟩

theorem storeTemp_head (buf : List Nat × Nat) (i v : Nat) :
    (storeTemp buf i v).1.head? = buf.1.head? := by
  unfold storeTemp
  rw [(storeByte_head _ _ _ (by omega)).1, (storeByte_head _ _ _ (by omega)).1]

theorem fill_head (bus : SensorBus) (l : List Nat) (buf : List Nat × Nat) :
    (l.foldl (fun b i => storeTemp b i (tempValue bus i)) buf).1.head? = buf.1.head? := by
  induction l generalizing buf with
  | nil => rfl
  | cons i rest ih =>
      simp only [List.foldl_cons]
      rw [ih, storeTemp_head]

/-- Whatever the device count, the first byte of the submitted buffer is the battery
byte. -/
theorem buildBuffer_head (analog : Int) (bus : SensorBus) :
    (buildBuffer analog bus).1.head? = some (batteryByte analog) := by
  unfold buildBuffer
  simp only
  rw [fill_head]
  have hpos : 0 < buffsize bus := by
    unfold buffsize toUint8
    have := bus.getDeviceCount.isLt
    omega
  obtain ⟨n, hn⟩ : ∃ n, buffsize bus = n + 1 := ⟨buffsize bus - 1, by omega⟩
  simp [storeByte, hn, List.replicate_succ]

theorem buttonInterupt_no_press (level : Nat) (s : State) (h : (level == 0) = false) :
    buttonInterupt level s = s := by
  simp [buttonInterupt, h]

theorem wake_no_press (wake : List Interrupt) (s : State)
    (h : wake.any Interrupt.isPress = false) :
    (wake.foldl (fun st irq => irq.run st) s).new_click = s.new_click := by
  induction wake generalizing s with
  | nil => rfl
  | cons irq rest ih =>
      simp only [List.any_cons, Bool.or_eq_false_iff] at h
      simp only [List.foldl_cons]
      rw [ih (irq.run s) h.2]
      cases irq with
      | button level =>
          have hl : (level == 0) = false := h.1
          simp [Interrupt.run, buttonInterupt_no_press level s hl]
      | pcint0 => rfl

theorem sleepCycle_no_press (q : OsDeltaTime) (mode : Sleep) (b : SleepActivity) (s : State)
    (h : b.pressed = false) :
    (sleepCycle q mode b s).new_click = s.new_click := by
  simp only [SleepActivity.pressed, Bool.or_eq_false_iff] at h
  unfold sleepCycle
  simp only
  rw [buttonInterupt_no_press _ _ h.2]
  exact wake_no_press b.wake _ h.1

theorem afterCycles_no_press (q : OsDeltaTime) (mode : Sleep) (btn : Nat → SleepActivity)
    (h : ∀ i, (btn i).pressed = false) (j : Nat) (s : State) :
    (afterCycles q mode btn j s).new_click = s.new_click := by
  induction j with
  | zero => rfl
  | succ j ih =>
      simp only [afterCycles]
      rw [sleepCycle_no_press q mode (btn j) _ (h j), ih]

theorem powersave_of_new_click (tps : Nat) (btn : Nat → SleepActivity)
    (maxTime : OsDeltaTime) (s : State) (h : s.new_click = true) :
    powersave tps btn maxTime s = s := by
  unfold powersave
  cases selectSleep tps maxTime with
  | none => rfl
  | some p =>
      obtain ⟨q, mode⟩ := p
      simp only
      cases cycleCount maxTime q with
      | zero => rfl
      | succ n => simp [sleepLoop, h]

/-- C1: for a non-negative `maxTime` and any activity of the button and the radio pins,
`powersave` adds to the time in sleep the number of sleep cycles it performed times the
selected quantum, and this total never exceeds `maxTime` (in ticks, at a tick rate at
which every quantum is at least one tick). -/
theorem powersave_time_le_maxTime (tps : Nat) (htps : 4 ≤ tps) (btn : Nat → SleepActivity)
    (maxTime : OsDeltaTime) (hmax : 0 ≤ maxTime.value) (s : State) :
    (powersave tps btn maxTime s).time_in_sleep - s.time_in_sleep ≤ maxTime.value ∧
    (selectSleep tps maxTime = none → powersave tps btn maxTime s = s) ∧
    ∀ q mode, selectSleep tps maxTime = some (q, mode) →
      ∃ n : Nat,
        (powersave tps btn maxTime s).powerDowns = s.powerDowns ++ List.replicate n mode ∧
        (powersave tps btn maxTime s).time_in_sleep = s.time_in_sleep + (n : Int) * q.value ∧
        (n : Int) * q.value ≤ maxTime.value := by
  have key : ∀ q mode, selectSleep tps maxTime = some (q, mode) →
      ∃ n : Nat,
        (powersave tps btn maxTime s).powerDowns = s.powerDowns ++ List.replicate n mode ∧
        (powersave tps btn maxTime s).time_in_sleep = s.time_in_sleep + (n : Int) * q.value ∧
        (n : Int) * q.value ≤ maxTime.value := by
    intro q mode hsel
    obtain ⟨hpos, hq0, _⟩ := selectSleep_bounds tps maxTime q mode hsel
    have hq : 0 < q.value := hpos htps
    obtain ⟨m, _, hm, hrun⟩ := sleepLoop_some q mode btn s (cycleCount maxTime q) 0
    obtain ⟨e1, e2, _, _⟩ := afterCycles_effect q mode btn m s
    rw [powersave_some tps btn maxTime s q mode hsel]
    simp only [afterCycles] at hrun
    rw [hrun]
    refine ⟨m, e1, e2, ?_⟩
    have hle : (m : Int) ≤ (cycleCount maxTime q : Int) := by omega
    calc (m : Int) * q.value ≤ (cycleCount maxTime q : Int) * q.value :=
          mul_le_mul_of_nonneg_right hle hq0
      _ ≤ maxTime.value := cycleCount_mul_le maxTime q hq0 hmax
  have hnone : selectSleep tps maxTime = none → powersave tps btn maxTime s = s := by
    intro h; simp [powersave, h]
  refine ⟨?_, hnone, key⟩
  cases hsel : selectSleep tps maxTime with
  | none => rw [hnone hsel]; simpa using hmax
  | some p =>
      obtain ⟨q, mode⟩ := p
      obtain ⟨n, _, e2, e3⟩ := key q mode hsel
      rw [e2]; omega

/-- Witness for C1: 30000 ms at 1000 ticks per second, the button found pressed after
the second cycle. -/
theorem powersave_time_le_maxTime_witness :
    (4 ≤ 1000 ∧ (0 : Int) ≤ (OsDeltaTime.mk 30000).value) ∧
    (powersave 1000 (clickAt 2) (OsDeltaTime.mk 30000) State.init).time_in_sleep
      - State.init.time_in_sleep ≤ (OsDeltaTime.mk 30000).value :=
  ⟨⟨by decide, by decide⟩,
   (powersave_time_le_maxTime 1000 (by decide) (clickAt 2) (OsDeltaTime.mk 30000)
      (by decide) State.init).1⟩

/-- C2: when a bucket is selected with computed cycle count `c` (the initial `nbsleep`),
`new_click` is clear at entry and before each of the first `k` cycles and is set after
the `k`-th, `1 ≤ k < c`, then `powersave` performs exactly `k` sleeps and adds exactly
`k` quanta; and with `new_click` set at entry it performs no cycle at all. -/
theorem powersave_stops_at_click (tps : Nat) (btn : Nat → SleepActivity)
    (maxTime : OsDeltaTime) (s : State) (q : OsDeltaTime) (mode : Sleep)
    (hsel : selectSleep tps maxTime = some (q, mode)) (k : Nat) (hk1 : 1 ≤ k)
    (hkc : k < cycleCount maxTime q)
    (hclear : ∀ j, j < k → (afterCycles q mode btn j s).new_click = false)
    (hset : (afterCycles q mode btn k s).new_click = true) :
    (powersave tps btn maxTime s).powerDowns = s.powerDowns ++ List.replicate k mode ∧
    (powersave tps btn maxTime s).time_in_sleep = s.time_in_sleep + (k : Int) * q.value ∧
    (powersave tps btn maxTime s).powerDowns.length
      < s.powerDowns.length + cycleCount maxTime q ∧
    (∀ t : State, t.new_click = true → powersave tps btn maxTime t = t) := by
  have hrun := sleepLoop_stop q mode btn s k hset (cycleCount maxTime q) 0 (by omega)
    (by omega) (fun j _ hj => hclear j hj)
  simp only [afterCycles] at hrun
  obtain ⟨e1, e2, _, _⟩ := afterCycles_effect q mode btn k s
  rw [powersave_some tps btn maxTime s q mode hsel, hrun]
  refine ⟨e1, e2, ?_, ?_⟩
  · rw [e1]; simp; omega
  · intro t ht
    rw [powersave_some tps btn maxTime t q mode hsel]
    cases hc : cycleCount maxTime q with
    | zero => simp [sleepLoop]
    | succ n => simp [sleepLoop, ht]

/-- Witness for C2: 30000 ms at 1000 ticks per second gives three cycles of 8640 ms; the
button is found pressed after the second. -/
theorem powersave_stops_at_click_witness :
    (selectSleep 1000 (OsDeltaTime.mk 30000) = some (OsDeltaTime.mk 8640, Sleep.P8S) ∧
      1 ≤ 2 ∧ 2 < cycleCount (OsDeltaTime.mk 30000) (OsDeltaTime.mk 8640)) ∧
    (powersave 1000 (clickAt 2) (OsDeltaTime.mk 30000) State.init).powerDowns
      = [Sleep.P8S, Sleep.P8S] ∧
    (powersave 1000 (clickAt 2) (OsDeltaTime.mk 30000) State.init).time_in_sleep
      = 2 * 8640 := by
  have h := powersave_stops_at_click 1000 (clickAt 2) (OsDeltaTime.mk 30000) State.init
    (OsDeltaTime.mk 8640) Sleep.P8S (by decide) 2 (by decide) (by decide)
    (by intro j hj; interval_cases j <;> decide) (by decide)
  exact ⟨⟨by decide, by decide, by decide⟩, h.1, h.2.1⟩

/-- C3: with TXRXPEND set, `do_send` calls `setTxData2` not at all, stores nothing, and
only re-schedules `do_send` on `sendjob` at `now + TX_INTERVAL`; with TXRXPEND clear it
calls `setTxData2` exactly once (port 4, unconfirmed) and leaves `sendjob` alone; so a
payload is submitted only when TXRXPEND is clear. -/
theorem do_send_gated (tps : Nat) (analog : Int) (bus : SensorBus) (now : OsTime)
    (s : State) :
    do_send tps true analog bus now s
      = { s with sendjob := OsJob.timed (now + TX_INTERVAL tps) Callback.do_send } ∧
    (do_send tps true analog bus now s).txData = s.txData ∧
    (do_send tps true analog bus now s).overrun = s.overrun ∧
    (∃ payload, (do_send tps false analog bus now s).txData
      = s.txData ++ [{ port := 4, data := payload, confirmed := false }]) ∧
    (do_send tps false analog bus now s).txData.length = s.txData.length + 1 ∧
    (do_send tps false analog bus now s).sendjob = s.sendjob ∧
    (∀ txrxpend, (do_send tps txrxpend analog bus now s).txData ≠ s.txData →
      txrxpend = false) := by
  refine ⟨by simp [do_send], by simp [do_send], by simp [do_send],
    ⟨(buildBuffer analog bus).1, by simp [do_send]⟩, by simp [do_send], by simp [do_send], ?_⟩
  intro txrxpend h
  cases txrxpend with
  | false => rfl
  | true => exact absurd (by simp [do_send]) h

set_option maxRecDepth 100000 in
/-- C4 at 128 devices: `buffsize` wraps to 1, so the submitted payload is the battery byte
alone, not `1 + 2 * 128` bytes, and the 256 bytes of the readings are stored outside
`rawbuff`. -/
theorem do_send_128_devices :
    bus128.getDeviceCount.val = 128 ∧ buffsize bus128 = 1 ∧
    (do_send 1000 false 600 bus128 (OsTime.mk 0) State.init).txData
      = [{ port := 4, data := [batteryByte 600], confirmed := false }] ∧
    (do_send 1000 false 600 bus128 (OsTime.mk 0) State.init).overrun = 256 := by
  decide

/-- C5: delivering TXCOMPLETE clears `send_now` and leaves `sendjob` set to run `begin_read`
at `now + TX_INTERVAL`, that is `now` plus the ticks of 180 seconds, whatever `sendjob`
held before. -/
theorem onEvent_txcomplete (tps : Nat) (now : OsTime) (s : State) :
    (onEvent tps now EventType.TXCOMPLETE s).send_now = false ∧
    (onEvent tps now EventType.TXCOMPLETE s).sendjob
      = OsJob.timed (now + TX_INTERVAL tps) Callback.begin_read ∧
    TX_INTERVAL tps = OsDeltaTime.from_sec tps 180 ∧
    now + TX_INTERVAL tps = OsTime.mk (now.value + 180 * (tps : Int)) ∧
    (∀ job, (onEvent tps now EventType.TXCOMPLETE { s with sendjob := job }).sendjob
      = OsJob.timed (OsTime.mk (now.value + 180 * (tps : Int))) Callback.begin_read) := by
  refine ⟨rfl, rfl, rfl, rfl, fun _ => rfl⟩

/-- C6, as stated, fails: at 1000 ticks per second and `maxTime` 8650 ms the calibrated
duration 8640 ms of the 8000 ms row does not exceed `maxTime`, yet `powersave` selects
the smaller quantum 4320 ms. -/
theorem selectSleep_counterexample :
    selectSleep 1000 (OsDeltaTime.mk 8650) = some (OsDeltaTime.mk 4320, Sleep.P4S) ∧
    (8700, 8000, Sleep.P8S) ∈ sleepTable ∧
    (calibrated 1000 (8700, 8000, Sleep.P8S)).value ≤ (OsDeltaTime.mk 8650).value ∧
    (OsDeltaTime.mk 4320).value < (calibrated 1000 (8700, 8000, Sleep.P8S)).value := by
  decide

/-- C6, amended: `powersave` selects the first row of the table whose threshold
(8700, 4600, 2600, 1500, 800, 500 ms) is strictly below `maxTime`, and none when
`maxTime` is at most 500 ms; the selected quantum is that row's calibrated duration
(8640, 4320, 2160, 1080, 540, 270 ms), it does not exceed `maxTime`, and it is the
largest calibrated duration among the rows whose threshold is strictly below
`maxTime`. -/
theorem selectSleep_first_threshold (tps : Nat) (maxTime : OsDeltaTime) :
    selectSleep tps maxTime
      = (sleepTable.find? (fun row => decide (maxTime > OsDeltaTime.from_ms tps row.1))).map
          (fun row => (calibrated tps row, row.2.2)) ∧
    (sleepTable.map (fun row => (row.1, Int.tdiv (row.2.1 * sleepAdj) 1000))
      = [(8700, 8640), (4600, 4320), (2600, 2160), (1500, 1080), (800, 540), (500, 270)]) ∧
    ∀ q mode, selectSleep tps maxTime = some (q, mode) →
      q.value ≤ maxTime.value ∧
      ∀ row ∈ sleepTable, maxTime > OsDeltaTime.from_ms tps row.1 →
        (calibrated tps row).value ≤ q.value := by
  refine ⟨?_, by decide, ?_⟩
  · unfold selectSleep sleepTable calibrated
    simp only [List.find?]
    split_ifs <;> simp_all
  · intro q mode hsel
    refine ⟨(selectSleep_bounds tps maxTime q mode hsel).2.2, ?_⟩
    intro row hrow hgt
    obtain ⟨c1, c2, c3, c4, c5, c6⟩ := quantum_consts
    have v1 := from_ms_value tps 8640 (by decide)
    have v2 := from_ms_value tps 4320 (by decide)
    have v3 := from_ms_value tps 2160 (by decide)
    have v4 := from_ms_value tps 1080 (by decide)
    have v5 := from_ms_value tps 540 (by decide)
    have v6 := from_ms_value tps 270 (by decide)
    have t1 := from_ms_value tps 8700 (by decide)
    have t2 := from_ms_value tps 4600 (by decide)
    have t3 := from_ms_value tps 2600 (by decide)
    have t4 := from_ms_value tps 1500 (by decide)
    have t5 := from_ms_value tps 800 (by decide)
    have t6 := from_ms_value tps 500 (by decide)
    simp only [sleepTable, List.mem_cons, List.mem_singleton, List.not_mem_nil, or_false] at hrow
    rcases selectSleep_cases tps maxTime with
      ⟨h, c⟩ | ⟨h, c⟩ | ⟨h, c⟩ | ⟨h, c⟩ | ⟨h, c⟩ | ⟨h, c⟩ | ⟨h, c⟩ <;>
    rw [h] at hsel <;> simp at hsel <;> obtain ⟨rfl, rfl⟩ := hsel <;>
    rcases hrow with rfl | rfl | rfl | rfl | rfl | rfl <;>
    simp only [calibrated, c1, c2, c3, c4, c5, c6, OsDeltaTime.gt_def] at hgt ⊢ <;>
    omega

/-- C7: when `maxTime` does not exceed the smallest threshold, `from_ms(500)`, `powersave`
returns at once: the state (sleep log, time in sleep, button flags and all the rest) is
unchanged, for any activity. -/
theorem powersave_below_threshold (tps : Nat) (btn : Nat → SleepActivity)
    (maxTime : OsDeltaTime) (s : State)
    (h : ¬ (maxTime > OsDeltaTime.from_ms tps 500)) :
    selectSleep tps maxTime = none ∧ powersave tps btn maxTime s = s := by
  have hnone : selectSleep tps maxTime = none := by
    rw [OsDeltaTime.gt_def, from_ms_value tps 500 (by decide)] at h
    rcases selectSleep_cases tps maxTime with
      ⟨_, c⟩ | ⟨_, c⟩ | ⟨_, c⟩ | ⟨_, c⟩ | ⟨_, c⟩ | ⟨_, c⟩ | ⟨h0, _⟩
    all_goals first | exact h0 | omega
  exact ⟨hnone, by simp [powersave, hnone]⟩

/-- Witness for C7: exactly 500 ms at 1000 ticks per second. -/
theorem powersave_below_threshold_witness :
    ¬ (OsDeltaTime.mk 500 > OsDeltaTime.from_ms 1000 500) ∧
    powersave 1000 (clickAt 1) (OsDeltaTime.mk 500) State.init = State.init :=
  ⟨by decide,
   (powersave_below_threshold 1000 (clickAt 1) (OsDeltaTime.mk 500) State.init
      (by decide)).2⟩

/-- C8: when a bucket is selected and `new_click` is clear before every cycle, `powersave`
performs exactly `cycles` iterations, `cycles` being the quotient `maxTime / quantum`
as held in the 16-bit counter `nbsleep` (the quotient itself when that is below 65536):
each iteration enters the period of the selected table row and adds that row's calibrated
duration `from_ms(nominal * 1080 / 1000)`, so the time in sleep advances by exactly
`cycles * quantum`. -/
theorem powersave_runs_all_cycles (tps : Nat) (htps : 4 ≤ tps) (btn : Nat → SleepActivity)
    (maxTime : OsDeltaTime) (s : State) (q : OsDeltaTime) (mode : Sleep)
    (hsel : selectSleep tps maxTime = some (q, mode))
    (hclear : ∀ j, j < cycleCount maxTime q → (afterCycles q mode btn j s).new_click = false) :
    (∃ row ∈ sleepTable,
      q = OsDeltaTime.from_ms tps (Int.tdiv (row.2.1 * 1080) 1000) ∧ mode = row.2.2) ∧
    0 < q.value ∧
    (cycleCount maxTime q : Int) = maxTime.value / q.value % 65536 ∧
    (maxTime.value / q.value < 65536 → (cycleCount maxTime q : Int) = maxTime.value / q.value) ∧
    (powersave tps btn maxTime s).powerDowns
      = s.powerDowns ++ List.replicate (cycleCount maxTime q) mode ∧
    (powersave tps btn maxTime s).time_in_sleep
      = s.time_in_sleep + (cycleCount maxTime q : Int) * q.value := by
  obtain ⟨hpos, hq0, hle⟩ := selectSleep_bounds tps maxTime q mode hsel
  have hq : 0 < q.value := hpos htps
  have hm : 0 ≤ maxTime.value := by omega
  have hc := cycleCount_eq maxTime q hm hq0
  have hrun := sleepLoop_all q mode btn s (cycleCount maxTime q) 0
    (fun j _ hj => hclear j (by omega))
  simp only [afterCycles, Nat.zero_add] at hrun
  obtain ⟨e1, e2, _, _⟩ := afterCycles_effect q mode btn (cycleCount maxTime q) s
  rw [powersave_some tps btn maxTime s q mode hsel, hrun]
  refine ⟨selectSleep_mem_table tps maxTime q mode hsel, hq, hc, ?_, e1, e2⟩
  intro hlt
  have hd : 0 ≤ maxTime.value / q.value := Int.ediv_nonneg hm hq0
  rw [hc]
  exact Int.emod_eq_of_lt hd hlt

/-- Witness for C8: 30000 ms at 1000 ticks per second with no activity gives three
cycles of 8640 ms. -/
theorem powersave_runs_all_cycles_witness :
    (4 ≤ 1000 ∧
      selectSleep 1000 (OsDeltaTime.mk 30000) = some (OsDeltaTime.mk 8640, Sleep.P8S)) ∧
    (powersave 1000 (fun _ => SleepActivity.quiet) (OsDeltaTime.mk 30000) State.init).powerDowns
      = [Sleep.P8S, Sleep.P8S, Sleep.P8S] ∧
    (powersave 1000 (fun _ => SleepActivity.quiet) (OsDeltaTime.mk 30000) State.init).time_in_sleep
      = 3 * 8640 := by
  have h := powersave_runs_all_cycles 1000 (by decide) (fun _ => SleepActivity.quiet)
    (OsDeltaTime.mk 30000) State.init (OsDeltaTime.mk 8640) Sleep.P8S (by decide)
    (by
      intro j hj
      have hj3 : j < 3 := hj
      interval_cases j <;> decide)
  exact ⟨⟨by decide, by decide⟩, h.2.2.2.2.1, h.2.2.2.2.2⟩

/-- C9, as stated, fails: at 1000 ticks per second and `maxTime` 2200 ms the computed
cycle count is 2; a radio pin change is recorded during the first cycle and the button
flag stays clear, yet `powersave` does not stop before performing both cycles. -/
theorem powersave_radio_counterexample :
    selectSleep 1000 (OsDeltaTime.mk 2200) = some (OsDeltaTime.mk 1080, Sleep.P1S) ∧
    cycleCount (OsDeltaTime.mk 2200) (OsDeltaTime.mk 1080) = 2 ∧
    Interrupt.pcint0 ∈ (radioAt 1 0).wake ∧
    (powersave 1000 (radioAt 1) (OsDeltaTime.mk 2200) State.init).store_trigger = 1 ∧
    (powersave 1000 (radioAt 1) (OsDeltaTime.mk 2200) State.init).new_click = false ∧
    ¬ ((powersave 1000 (radioAt 1) (OsDeltaTime.mk 2200) State.init).powerDowns.length
        < State.init.powerDowns.length
          + cycleCount (OsDeltaTime.mk 2200) (OsDeltaTime.mk 1080)) := by
  decide

/-- C9, amended: only the button flag stops `powersave`. When a bucket is selected with
computed cycle count `c`, a radio pin change is recorded by the PCINT0 handler during
one of the `c` cycles and `new_click` is clear before every cycle, `powersave` still
performs all `c` cycles, and the change stays recorded in `store_trigger`. -/
theorem powersave_not_stopped_by_radio (tps : Nat) (btn : Nat → SleepActivity)
    (maxTime : OsDeltaTime) (s : State) (q : OsDeltaTime) (mode : Sleep)
    (hsel : selectSleep tps maxTime = some (q, mode)) (k : Nat)
    (hk : k < cycleCount maxTime q) (hradio : Interrupt.pcint0 ∈ (btn k).wake)
    (hclear : ∀ j, j < cycleCount maxTime q → (afterCycles q mode btn j s).new_click = false) :
    (powersave tps btn maxTime s).powerDowns
      = s.powerDowns ++ List.replicate (cycleCount maxTime q) mode ∧
    s.store_trigger < (powersave tps btn maxTime s).store_trigger := by
  have hrun := sleepLoop_all q mode btn s (cycleCount maxTime q) 0
    (fun j _ hj => hclear j (by omega))
  simp only [afterCycles, Nat.zero_add] at hrun
  obtain ⟨e1, _, _, _⟩ := afterCycles_effect q mode btn (cycleCount maxTime q) s
  rw [powersave_some tps btn maxTime s q mode hsel, hrun]
  exact ⟨e1, (afterCycles_store_trigger q mode btn s (cycleCount maxTime q)).2 k hk hradio⟩

/-- Witness for C9 as amended: 2200 ms at 1000 ticks per second, a radio pin change
during the first of two cycles. -/
theorem powersave_not_stopped_by_radio_witness :
    (selectSleep 1000 (OsDeltaTime.mk 2200) = some (OsDeltaTime.mk 1080, Sleep.P1S) ∧
      0 < cycleCount (OsDeltaTime.mk 2200) (OsDeltaTime.mk 1080) ∧
      Interrupt.pcint0 ∈ (radioAt 1 0).wake) ∧
    (powersave 1000 (radioAt 1) (OsDeltaTime.mk 2200) State.init).powerDowns
      = [Sleep.P1S, Sleep.P1S] ∧
    State.init.store_trigger
      < (powersave 1000 (radioAt 1) (OsDeltaTime.mk 2200) State.init).store_trigger := by
  have h := powersave_not_stopped_by_radio 1000 (radioAt 1) (OsDeltaTime.mk 2200) State.init
    (OsDeltaTime.mk 1080) Sleep.P1S (by decide) 0 (by decide) (by decide)
    (by
      intro j hj
      have hj2 : j < 2 := hj
      interval_cases j <;> decide)
  exact ⟨⟨by decide, by decide, by decide⟩, h.1, h.2⟩

/-- C10: with `send_now` set, `buttonInterupt` changes nothing whatever the pin level;
with `send_now` clear it sets `new_click` when the pin reads 0 and changes nothing
otherwise. An iteration of `loop` that finds `new_click` set ends with `send_now` set
and `new_click` clear, and from such a state every run of handlers, callbacks, sleeps
and loop iterations in which TXCOMPLETE is not delivered keeps `send_now` set and
`new_click` clear: no click is recorded. -/
theorem button_ignored_while_send_pending (tps : Nat) :
    (∀ level s, s.send_now = true → buttonInterupt level s = s) ∧
    (∀ level s, s.send_now = false → level = 0 →
      buttonInterupt level s = { s with new_click := true }) ∧
    (∀ level s, s.send_now = false → level ≠ 0 → buttonInterupt level s = s) ∧
    (∀ rl btn s, (loopSleep tps rl btn s).new_click = true →
      (loop tps rl btn s).send_now = true ∧ (loop tps rl btn s).new_click = false) ∧
    (∀ steps s, s.send_now = true → s.new_click = false →
      (∀ step ∈ steps, step.hasTxComplete = false) →
      (runSteps tps steps s).send_now = true ∧ (runSteps tps steps s).new_click = false) ∧
    (∀ now s, (onEvent tps now EventType.TXCOMPLETE s).send_now = false) := by
  refine ⟨fun level s h => buttonInterupt_of_send_now level s h, ?_, ?_, ?_, ?_, ?_⟩
  · intro level s h hl
    simp [buttonInterupt, h, hl]
  · intro level s h hl
    simp [buttonInterupt, h, hl]
  · intro rl btn s h
    simp [loop, h]
  · intro steps
    induction steps with
    | nil => intro s h1 h2 _; exact ⟨h1, h2⟩
    | cons step rest ih =>
        intro s h1 h2 hall
        obtain ⟨k1, k2⟩ := step_run_keeps tps step s (hall step (List.mem_cons_self _ _)) h1 h2
        simp only [runSteps, List.foldl_cons]
        exact ih (step.run tps s) k1 k2 (fun st hst => hall st (List.mem_cons_of_mem _ hst))
  · intro now s
    rfl

/-- C11: for every event other than TXCOMPLETE, `onEvent` leaves `sendjob` (callback and
due time), `send_now` and `new_click` as they were; beyond the watchdog keep-alive
`rst_wdt()` that every delivery makes, the only change is the duty rate, set to 12 by
JOINED and left alone by every other such event. -/
theorem onEvent_other_events (tps : Nat) (now : OsTime) (ev : EventType) (s : State)
    (hev : ev ≠ EventType.TXCOMPLETE) :
    (onEvent tps now ev s).sendjob = s.sendjob ∧
    (onEvent tps now ev s).send_now = s.send_now ∧
    (onEvent tps now ev s).new_click = s.new_click ∧
    onEvent tps now ev s
      = { rst_wdt s with dutyRate := if ev = EventType.JOINED then 12 else s.dutyRate } ∧
    (ev ≠ EventType.JOINED → onEvent tps now ev s = rst_wdt s) ∧
    (onEvent tps now EventType.JOINED s).dutyRate = 12 := by
  cases ev <;> simp_all [onEvent, rst_wdt]

/-- Witness for C11: JOINED delivered in the initial state. -/
theorem onEvent_other_events_witness :
    EventType.JOINED ≠ EventType.TXCOMPLETE ∧
    (onEvent 1000 (OsTime.mk 7) EventType.JOINED State.init).sendjob = OsJob.idle :=
  ⟨by decide,
   (onEvent_other_events 1000 (OsTime.mk 7) EventType.JOINED State.init (by decide)).1⟩

/-- C12: `new_click` is sticky. From a state with `new_click` set, `buttonInterupt`,
`powersave`, `onEvent` for every event, `begin_read`, `do_send` and the radio handler
all end with `new_click` set; `onEvent`, `begin_read`, `do_send` and the radio handler
never change it, and `powersave` changes it only when a run of `buttonInterupt` reads
the pin low; `buttonInterupt` sets it only with `send_now` clear and the pin low. Only
the consumption step of `loop` clears it: every iteration ends with `new_click` clear. -/
theorem new_click_sticky (tps : Nat) :
    (∀ level s, s.new_click = true → (buttonInterupt level s).new_click = true) ∧
    (∀ btn maxTime s, s.new_click = true →
      (powersave tps btn maxTime s).new_click = true ∧ powersave tps btn maxTime s = s) ∧
    (∀ now ev s, (onEvent tps now ev s).new_click = s.new_click) ∧
    (∀ bus now s, (begin_read tps bus now s).new_click = s.new_click) ∧
    (∀ txrxpend analog bus now s,
      (do_send tps txrxpend analog bus now s).new_click = s.new_click) ∧
    (∀ s, (PCINT0_vect s).new_click = s.new_click) ∧
    (∀ btn maxTime s, (∀ i, (btn i).pressed = false) →
      (powersave tps btn maxTime s).new_click = s.new_click) ∧
    (∀ level s, (buttonInterupt level s).new_click = true →
      s.new_click = true ∨ (s.send_now = false ∧ level = 0)) ∧
    (∀ rl btn s, (loop tps rl btn s).new_click = false) ∧
    (∀ rl btn s, (loopSleep tps rl btn s).new_click = true →
      (loop tps rl btn s).new_click = false) := by
  refine ⟨?_, ?_, ?_, ?_, ?_, ?_, ?_, ?_, ?_, ?_⟩
  · intro level s h
    rcases buttonInterupt_cases level s with e | ⟨_, _, e⟩ <;> rw [e]
    exact h
  · intro btn maxTime s h
    rw [powersave_of_new_click tps btn maxTime s h]
    exact ⟨h, rfl⟩
  · intro now ev s
    cases ev <;> rfl
  · intro bus now s; rfl
  · intro txrxpend analog bus now s
    cases txrxpend <;> rfl
  · intro s; rfl
  · intro btn maxTime s h
    cases hsel : selectSleep tps maxTime with
    | none => simp [powersave, hsel]
    | some p =>
        obtain ⟨q, mode⟩ := p
        obtain ⟨m, _, _, hrun⟩ := sleepLoop_some q mode btn s (cycleCount maxTime q) 0
        simp only [afterCycles] at hrun
        rw [powersave_some tps btn maxTime s q mode hsel, hrun]
        exact afterCycles_no_press q mode btn h m s
  · intro level s h
    rcases buttonInterupt_cases level s with e | ⟨h1, h2, _⟩
    · rw [e] at h; exact Or.inl h
    · exact Or.inr ⟨h1, h2⟩
  · intro rl btn s
    unfold loop
    simp only
    cases h : (loopSleep tps rl btn s).new_click <;> simp [h]
  · intro rl btn s h
    simp [loop, h]

/-- C13, as stated, fails: at 1000 ticks per second and `maxTime` 8500 ms, `maxTime`
exceeds the nominal duration 8000 ms of the first row, yet that row is not selected;
the threshold it is compared with is 8700 ms. -/
theorem threshold_counterexample :
    (8700, 8000, Sleep.P8S) ∈ sleepTable ∧
    OsDeltaTime.mk 8500 > OsDeltaTime.from_ms 1000 8000 ∧
    ¬ (OsDeltaTime.mk 8500 > OsDeltaTime.from_ms 1000 8700) ∧
    selectSleep 1000 (OsDeltaTime.mk 8500) = some (OsDeltaTime.mk 4320, Sleep.P4S) := by
  decide

/-- C13, amended: the calibration is asymmetric. A selected bucket is a row of the table
whose threshold, compared with `maxTime` unscaled, is a constant of its own (8700, 4600,
2600, 1500, 800, 500 ms), larger than the nominal duration and than the calibrated one;
the duration added to the time in sleep at each cycle is the nominal duration scaled by
`sleepAdj / 1000 = 1080 / 1000`. -/
theorem threshold_unscaled_duration_scaled (tps : Nat) (maxTime q : OsDeltaTime)
    (mode : Sleep) (hsel : selectSleep tps maxTime = some (q, mode)) :
    (∃ row ∈ sleepTable,
      maxTime > OsDeltaTime.from_ms tps row.1 ∧
      q = OsDeltaTime.from_ms tps (Int.tdiv (row.2.1 * sleepAdj) 1000) ∧
      mode = row.2.2 ∧
      Int.tdiv (row.2.1 * sleepAdj) 1000 * 1000 = row.2.1 * 1080 ∧
      row.2.1 < Int.tdiv (row.2.1 * sleepAdj) 1000 ∧
      Int.tdiv (row.2.1 * sleepAdj) 1000 < row.1) ∧
    sleepTable.map (fun row => row.1) = [8700, 4600, 2600, 1500, 800, 500] ∧
    sleepTable.map (fun row => row.2.1) = [8000, 4000, 2000, 1000, 500, 250] ∧
    (∀ b s, (sleepCycle q mode b s).time_in_sleep = s.time_in_sleep + q.value) := by
  refine ⟨?_, by decide, by decide, fun b s => (sleepCycle_effect q mode b s).2.1⟩
  unfold selectSleep at hsel
  split_ifs at hsel with h1 h2 h3 h4 h5 h6 <;> simp at hsel <;> obtain ⟨rfl, rfl⟩ := hsel
  · exact ⟨(8700, 8000, Sleep.P8S), by simp [sleepTable], h1, rfl, rfl, by decide⟩
  · exact ⟨(4600, 4000, Sleep.P4S), by simp [sleepTable], h2, rfl, rfl, by decide⟩
  · exact ⟨(2600, 2000, Sleep.P2S), by simp [sleepTable], h3, rfl, rfl, by decide⟩
  · exact ⟨(1500, 1000, Sleep.P1S), by simp [sleepTable], h4, rfl, rfl, by decide⟩
  · exact ⟨(800, 500, Sleep.P500MS), by simp [sleepTable], h5, rfl, rfl, by decide⟩
  · exact ⟨(500, 250, Sleep.P250MS), by simp [sleepTable], h6, rfl, rfl, by decide⟩

/-- Witness for C13 as amended: 8500 ms at 1000 ticks per second selects the 4000 ms
row. -/
theorem threshold_unscaled_duration_scaled_witness :
    selectSleep 1000 (OsDeltaTime.mk 8500) = some (OsDeltaTime.mk 4320, Sleep.P4S) ∧
    ∀ b s, (sleepCycle (OsDeltaTime.mk 4320) Sleep.P4S b s).time_in_sleep
      = s.time_in_sleep + (OsDeltaTime.mk 4320).value :=
  ⟨by decide,
   (threshold_unscaled_duration_scaled 1000 (OsDeltaTime.mk 8500) (OsDeltaTime.mk 4320)
      Sleep.P4S (by decide)).2.2.2⟩

/-- C14: `begin_read` makes exactly one conversion request, calls `setTxData2` not at all,
and leaves `sendjob` set to run `do_send` at `now` plus the ticks of the conversion time
in milliseconds that the sensor library reports for the current resolution, whatever
`sendjob` held before; nothing else changes. -/
theorem begin_read_schedules_do_send (tps : Nat) (bus : SensorBus) (now : OsTime)
    (s : State) :
    (begin_read tps bus now s).conversions = s.conversions + 1 ∧
    (begin_read tps bus now s).txData = s.txData ∧
    (begin_read tps bus now s).sendjob
      = OsJob.timed
          (now + OsDeltaTime.from_ms tps (bus.millisToWaitForConversion bus.getResolution))
          Callback.do_send ∧
    (∀ job, (begin_read tps bus now { s with sendjob := job }).sendjob
      = (begin_read tps bus now s).sendjob) ∧
    begin_read tps bus now s
      = { s with
          conversions := s.conversions + 1,
          sendjob := OsJob.timed
            (now + OsDeltaTime.from_ms tps (bus.millisToWaitForConversion bus.getResolution))
            Callback.do_send } := by
  refine ⟨rfl, rfl, rfl, fun _ => rfl, rfl⟩

/-- A duration that fits a signed 32-bit tick count is less than 65536 quanta of the
largest bucket as soon as the tick rate is at least 3793 per second. -/
theorem int32_duration_fits (tps : Nat) (htps : 3793 ≤ tps) (maxTime : OsDeltaTime)
    (h32 : maxTime.value < 2147483648) :
    maxTime.value < 65536 * (OsDeltaTime.from_ms tps 8640).value := by
  rw [from_ms_value tps 8640 (by decide)]
  omega

/-- At exactly 65536 quanta of the largest bucket (566231040 ms at 1000 ticks per
second) the quotient is 65536 and the count held in the 16-bit `nbsleep` is 0: in this
model, where a duration is an unbounded tick count, the bound on `maxTime` of the
following theorem cannot be left out. -/
theorem cycleCount_at_65536_quanta :
    selectSleep 1000 (OsDeltaTime.mk 566231040) = some (OsDeltaTime.mk 8640, Sleep.P8S) ∧
    OsDeltaTime.div (OsDeltaTime.mk 566231040) (OsDeltaTime.mk 8640) = 65536 ∧
    cycleCount (OsDeltaTime.mk 566231040) (OsDeltaTime.mk 8640) = 0 ∧
    ¬ ((OsDeltaTime.mk 566231040).value
        < 65536 * (OsDeltaTime.from_ms 1000 8640).value) := by
  decide

/-- At 285 ticks per second the rounding of `from_ms` lets the count reach 3 for a
`maxTime` of 800 ms: the bound 286 on the tick rate in the last part of the following
theorem is the least from which that part holds at every higher rate. -/
theorem cycleCount_at_285_ticks :
    selectSleep 285 (OsDeltaTime.from_ms 285 800)
      = some (OsDeltaTime.from_ms 285 270, Sleep.P250MS) ∧
    cycleCount (OsDeltaTime.from_ms 285 800) (OsDeltaTime.from_ms 285 270) = 3 := by
  decide

/-- C16: for a 10-bit ADC reading `raw`, the battery byte that `do_send` puts first in
the payload is `raw * 255 / 683` reduced modulo 256; it equals the unreduced value
exactly when `raw ≤ 685`, where it is at most 255 and non-decreasing in `raw`, with 683
giving 255; from 686 on the stored byte differs from the scaled value (it wraps), 1023
giving 125. -/
theorem batteryByte_scaling (raw : Nat) (hraw : raw ≤ 1023) :
    batteryByte (raw : Int) = (raw * 255 / 683) % 256 ∧
    (batteryByte (raw : Int) = raw * 255 / 683 ↔ raw ≤ 685) ∧
    (raw ≤ 685 → raw * 255 / 683 ≤ 255) ∧
    (∀ raw2 : Nat, raw ≤ raw2 → raw2 ≤ 685 →
      batteryByte (raw : Int) ≤ batteryByte (raw2 : Int)) ∧
    batteryByte 683 = 255 ∧ batteryByte 686 = 0 ∧ batteryByte 1023 = 125 ∧
    (∀ tps bus now s,
      ∃ rest, (do_send tps false (raw : Int) bus now s).txData
        = s.txData ++ [{ port := 4, data := batteryByte (raw : Int) :: rest,
                         confirmed := false }]) := by
  have key : ∀ r : Nat, r ≤ 1023 → batteryByte (r : Int) = (r * 255 / 683) % 256 := by
    intro r hr
    have e1 : ((r : Int) % 4294967296).toNat = r := by omega
    have e2 : r * 255 % 4294967296 = r * 255 := Nat.mod_eq_of_lt (by omega)
    unfold batteryByte toUint8 toUint32
    rw [e1, e2]
    omega
  have small : ∀ r : Nat, r ≤ 685 → r * 255 / 683 ≤ 255 := by
    intro r hr
    have : r * 255 / 683 ≤ 685 * 255 / 683 := Nat.div_le_div_right (by omega)
    simpa using this
  refine ⟨key raw hraw, ?_, small raw, ?_, by decide, by decide, by decide, ?_⟩
  · rw [key raw hraw]
    constructor
    · intro h
      by_contra hgt
      have h256 : 686 * 255 / 683 ≤ raw * 255 / 683 := Nat.div_le_div_right (by omega)
      have hlt : raw * 255 / 683 % 256 < 256 := Nat.mod_lt _ (by decide)
      have h686 : 686 * 255 / 683 = 256 := by decide
      omega
    · intro h
      exact Nat.mod_eq_of_lt (by have := small raw h; omega)
  · intro raw2 h1 h2
    rw [key raw hraw, key raw2 (by omega),
      Nat.mod_eq_of_lt (by have := small raw (by omega); omega),
      Nat.mod_eq_of_lt (by have := small raw2 h2; omega)]
    exact Nat.div_le_div_right (by omega)
  · intro tps bus now s
    have hh := buildBuffer_head (raw : Int) bus
    cases hb : (buildBuffer (raw : Int) bus).1 with
    | nil => rw [hb] at hh; simp at hh
    | cons a rest =>
        rw [hb] at hh
        simp at hh
        subst hh
        exact ⟨rest, by simp [do_send, hb]⟩

/-- Witness for C16: the full-scale reading 1023. -/
theorem batteryByte_scaling_witness :
    1023 ≤ 1023 ∧ batteryByte ((1023 : Nat) : Int) = (1023 * 255 / 683) % 256 :=
  ⟨by decide, (batteryByte_scaling 1023 (by decide)).1⟩

/-- C17: after an iteration of `loop` `new_click` is clear. When the consumption step
finds `new_click` set, it sets `send_now`, clears `new_click` and makes `sendjob`
runnable at once with `begin_read`, whatever `sendjob` held; when it finds it clear, it
changes nothing. `powersave` is called in the iteration exactly when the duration
returned by `runloopOnce` is strictly positive, and then with that duration. -/
theorem loop_consumes_click (tps : Nat) (rl : State → OsDeltaTime × State)
    (btn : Nat → SleepActivity) (s : State) :
    (loop tps rl btn s).new_click = false ∧
    ((loopSleep tps rl btn s).new_click = true →
      loop tps rl btn s
        = { loopSleep tps rl btn s with
            send_now := true, new_click := false,
            sendjob := OsJob.runnable Callback.begin_read }) ∧
    ((loopSleep tps rl btn s).new_click = false →
      loop tps rl btn s = loopSleep tps rl btn s) ∧
    ((rl (rst_wdt s)).1 > OsDeltaTime.mk 0 →
      loopSleep tps rl btn s = powersave tps btn (rl (rst_wdt s)).1 (rl (rst_wdt s)).2) ∧
    (¬ ((rl (rst_wdt s)).1 > OsDeltaTime.mk 0) →
      loopSleep tps rl btn s = (rl (rst_wdt s)).2) := by
  refine ⟨?_, ?_, ?_, ?_, ?_⟩
  · unfold loop
    simp only
    cases h : (loopSleep tps rl btn s).new_click <;> simp [h]
  · intro h; simp [loop, h]
  · intro h; simp [loop, h]
  · intro h; simp [loopSleep, h]
  · intro h; simp [loopSleep, h]

end TempSensor
